import Mathlib

/-!
Verification development for the `gisc` archive-ingestion pipeline.

The definitions below are a shallow embedding of the Python sources:
  * `src/gisc/populate_db.py` — `check_if_params`, `populate`, the archive
    decode loop and the per-type batch loader;
  * `src/gisc/utils.py` — `validate_date`, `in_valid_date_range`,
    `handle_valid_invalid_files`;
  * `src/gisc/gisc_msgs.py` — the constant tables the above consume.

External capabilities (the Python standard library's incremental JSON
decoder, `os.path`, `datetime`) are modelled by explicit executable
functions whose behaviour matches the library contract the source relies
on; the repository's own control flow is translated statement by
statement.
-/

deriving instance DecidableEq for Except

namespace Gisc

/-! ## Event records and the archive decode loop (`populate`, lines 117-129) -/

/-- One decoded JSON object.  The program treats records as opaque except
for the `type` field used for routing (`gz_event['type']`), so a record is
modelled as its type plus an opaque payload. -/
structure EventRecord where
  type : String
  payload : String
deriving DecidableEq

/-- One serialized JSON object inside a decompressed archive buffer: the
record it decodes to together with the length of its serialized text.  A
buffer holding concatenated objects with no separator is a list of
segments. -/
structure Segment where
  record : EventRecord
  len : Nat
deriving DecidableEq

/-- Length of the whole decompressed buffer (`len(gz_data)`). -/
def bufLen (segs : List Segment) : Nat :=
  (segs.map (fun s => s.len)).sum

/-- Model of `json.JSONDecoder().raw_decode(gz_data, idx)` on a buffer that
is the concatenation of serialized objects: decoding at the start offset of
a segment returns that segment's record and the index immediately past its
serialized text; decoding at any other offset fails. -/
def rawDecode (segs : List Segment) (idx : Nat) : Option (EventRecord × Nat) :=
  match segs with
  | [] => none
  | s :: rest =>
    if idx = 0 then some (s.record, s.len)
    else if idx < s.len then none
    else
      match rawDecode rest (idx - s.len) with
      | none => none
      | some (r, e) => some (r, e + s.len)

/-- The decode loop of `populate`:
`end = 0; while end != len(gz_data): gz_event, end = decoder.raw_decode(gz_data, idx=end)`.
The cursor starts at 0, each step decodes one object and advances the
cursor to the reported index, and the loop stops when the cursor reaches
the buffer's end.  `fuel` bounds the number of iterations; a failed decode
(a raised `ValueError`) is `none`. -/
def decodeLoop (rd : Nat → Option (EventRecord × Nat)) (total : Nat) :
    Nat → Nat → Option (List EventRecord)
  | fuel, cursor =>
    if cursor = total then some []
    else
      match fuel with
      | 0 => none
      | fuel' + 1 =>
        match rd cursor with
        | none => none
        | some (r, e) =>
          match decodeLoop rd total fuel' e with
          | none => none
          | some rest => some (r :: rest)

/-- Run the decode loop of `populate` over one whole decompressed buffer. -/
def decodeAll (segs : List Segment) : Option (List EventRecord) :=
  decodeLoop (rawDecode segs) (bufLen segs) segs.length 0

/-! ## Event classification and batch loading (`populate`, lines 117-134) -/

/-- `gisc_msgs.POPULARITY_EVENTS`. -/
def POPULARITY_EVENTS : List String := ["PushEvent", "WatchEvent", "FollowEvent"]

/-- `gisc_msgs.ALL_COLL`, the catch-all collection name. -/
def ALL_COLL : String := "AllEvent"

/-- `gisc_msgs.GISC_DB`. -/
def GISC_DB : String := "gisc"

/-- One observable storage-gateway action performed by `populate`. -/
inductive DBAction where
  | connect (db : String)
  | insert (coll : String) (recs : List EventRecord)
deriving DecidableEq

/-- `entries = _events.get(event_type, []); entries.append(gz_event);
_events[event_type] = entries` — append a record to its type's group,
creating the group if absent. -/
def addEvent (groups : List (String × List EventRecord)) (ty : String)
    (r : EventRecord) : List (String × List EventRecord) :=
  match groups with
  | [] => [(ty, [r])]
  | (k, v) :: rest =>
    if k = ty then (k, v ++ [r]) :: rest else (k, v) :: addEvent rest ty r

/-- The grouping performed inside the decode loop of `populate`: each
decoded record whose `type` is in `events_to_populate` is appended to its
per-type group; records with other types are discarded. -/
def groupEvents (allow : List String) (records : List EventRecord) :
    List (String × List EventRecord) :=
  records.foldl (fun gs r => if r.type ∈ allow then addEvent gs r.type r else gs) []

/-- The flush loop of `populate`:
`for k, v in _events.iteritems(): if not len(v): continue;
db_obj.coll(k).insert(v); all_coll.insert(v)` — for each non-empty group
one bulk write to the type-named collection then one bulk write of the
same records to the catch-all collection. -/
def flushWrites : List (String × List EventRecord) → List DBAction
  | [] => []
  | (k, v) :: rest =>
    if v.length = 0 then flushWrites rest
    else .insert k v :: .insert ALL_COLL v :: flushWrites rest

/-- Decode one archive file's buffer and compute the storage writes its
batch produces (`none` if the decode raises mid-stream, in which case no
write for this file happens). -/
def fileWrites (allow : List String) (buf : List Segment) : Option (List DBAction) :=
  match decodeAll buf with
  | none => none
  | some recs => some (flushWrites (groupEvents allow recs))

/-- Errors raised by `populate`. -/
inductive PopError where
  | invalidArchPath
  | noArchiveFiles
  | decodeFailure
deriving DecidableEq

/-- The file-system facts `populate` observes: whether `src_path` is a
directory (`os.path.isdir`) and the decompressed contents of the
`*.json.gz` files `glob` finds in it. -/
structure ArchiveEnv where
  isDir : Bool
  gzFiles : List (List Segment)

/-- Loop of `populate` over the globbed archive files, accumulating the
storage actions performed so far; a decode failure aborts with the actions
already performed. -/
def populateGo (allow : List String) (acc : List DBAction) :
    List (List Segment) → List DBAction × Option PopError
  | [] => (acc, none)
  | f :: fs =>
    match fileWrites allow f with
    | none => (acc, some .decodeFailure)
    | some ws => populateGo allow (acc ++ ws) fs

/-- `populate(src_path, events_to_populate)`: raises
`InvalidArchPathError('DIR_PATH', ...)` if the working directory does not
exist, then `NoArchiveFilesError('EMPTY_DIR', ...)` if no `*.json.gz` file
matches, and only then opens the storage connection and decodes files.
Returns the storage actions performed plus the error aborting the run, if
any. -/
def populate (env : ArchiveEnv) (allow : List String) :
    List DBAction × Option PopError :=
  if env.isDir = false then ([], some .invalidArchPath)
  else if env.gzFiles.length = 0 then ([], some .noArchiveFiles)
  else populateGo allow [DBAction.connect GISC_DB] env.gzFiles

/-! ## Date-range validation (`utils.py`, lines 74-133) -/

/-- Error codes of the `DBPopulateError`s raised by `validate_date`, as
passed at each raise site: `MISSING_VALUE`, `IMPROPER_VALUE` (with the
field name and bound side from the format tuple), `IMPROPER_TYPE`, the
propagated `datetime` construction failure, and `_OUT_BRACKET`. -/
inductive DateError where
  | missingValue
  | improperValue (field : String) (side : String)
  | improperType
  | invalidDate
  | outBracket
deriving DecidableEq

/-- A `datetime.datetime` at the granularity this program constructs them:
year, month, day, hour (minutes and seconds are always zero in
`validate_date` and `START_DATE`). -/
structure PyDateTime where
  year : Int
  month : Int
  day : Int
  hour : Int
deriving DecidableEq

/-- `datetime` comparison: lexicographic on (year, month, day, hour). -/
def dtLt (a b : PyDateTime) : Bool :=
  if a.year ≠ b.year then a.year < b.year
  else if a.month ≠ b.month then a.month < b.month
  else if a.day ≠ b.day then a.day < b.day
  else a.hour < b.hour

/-- `utils.START_DATE = datetime.datetime(2011, 2, 12)`. -/
def START_DATE : PyDateTime := ⟨2011, 2, 12, 0⟩

/-- `in_valid_date_range(date)`: `START_DATE < date < datetime.datetime.now()`,
with the current time `now` passed explicitly. -/
def in_valid_date_range (now date : PyDateTime) : Bool :=
  dtLt START_DATE date && dtLt date now

/-- Gregorian leap year, as `datetime` implements it. -/
def isLeap (y : Int) : Bool :=
  y % 4 = 0 && (y % 100 ≠ 0 || y % 400 = 0)

/-- Days in a month, as `datetime` implements it. -/
def daysInMonth (y m : Int) : Int :=
  if m = 2 then (if isLeap y then 29 else 28)
  else if m = 4 || m = 6 || m = 9 || m = 11 then 30
  else 31

/-- Model of the `datetime.datetime(y, m, d, h)` constructor: `ValueError`
(here `none`) unless `1 <= y <= 9999`, `1 <= m <= 12`,
`1 <= d <= daysInMonth`, `0 <= h <= 23`. -/
def mkDatetime (y m d h : Int) : Option PyDateTime :=
  if 1 ≤ y ∧ y ≤ 9999 ∧ 1 ≤ m ∧ m ≤ 12 ∧ 1 ≤ d ∧ d ≤ daysInMonth y m ∧
     0 ≤ h ∧ h ≤ 23
  then some ⟨y, m, d, h⟩ else none

/-- Python's `s.split(sep)` for a one-character separator, on the
character list of the string.  Like Python's `split`, it returns one
(possibly empty) field more than the number of separators. -/
def splitOnChar (sep : Char) : List Char → List (List Char)
  | [] => [[]]
  | c :: rest =>
    if c = sep then [] :: splitOnChar sep rest
    else
      match splitOnChar sep rest with
      | [] => [[c]]
      | g :: gs => (c :: g) :: gs

/-- `arch_date.split('-')`. -/
def splitOnDash : List Char → List (List Char) :=
  splitOnChar '-'

/-- Is `c` one of the characters of the strip set `'\x7b\x7d'`? -/
def isBrace (c : Char) : Bool :=
  c = '\x7b' || c = '\x7d'

/-- `val.strip('\x7b\x7d')`: remove leading and trailing brace characters. -/
def stripBraces (l : List Char) : List Char :=
  ((l.dropWhile isBrace).reverse.dropWhile isBrace).reverse

/-- Does `pat` occur at the head of `l`? -/
def leadsWith : List Char → List Char → Bool
  | [], _ => true
  | _ :: _, [] => false
  | p :: ps, c :: cs => p = c && leadsWith ps cs

/-- Split `l` at the first occurrence of `pat`: the part before it and the
part after it, or `none` when `pat` does not occur.  This backs both
`pat in val` and `val.split(pat)` as the source uses them. -/
def breakSub (pat : List Char) : List Char → Option (List Char × List Char)
  | [] => none
  | c :: rest =>
    if leadsWith pat (c :: rest) then some ([], (c :: rest).drop pat.length)
    else
      match breakSub pat rest with
      | none => none
      | some (a, b) => some (c :: a, b)

/-- Python's substring test `pat in val`. -/
def pyIn (pat l : List Char) : Bool :=
  (breakSub pat l).isSome

/-- The first two fields of `val.split(pat)` (`val.split(delimiter)[:2]`),
assuming `pat` occurs in `val` (the only case the source reaches). -/
def pySplit2 (pat l : List Char) : List Char × List Char :=
  match breakSub pat l with
  | none => (l, l)
  | some (a, b) =>
    match breakSub pat b with
    | none => (a, b)
    | some (a2, _) => (a, a2)

/-- The `'..'` range delimiter. -/
def dotdot : List Char := ['.', '.']

/-- The `','` range delimiter. -/
def commaPat : List Char := [',']

/-- The body of `validate_date`'s per-component loop:
`val = val.strip('\x7b\x7d')`;
`delimiter = '..' in val and '..' or ',' in val and ',' or None`;
`left, right = delimiter and val.split(delimiter)[:2] or [val] * 2`. -/
def parseComponent (val : List Char) : List Char × List Char :=
  let v := stripBraces val
  if pyIn dotdot v then pySplit2 dotdot v
  else if pyIn commaPat v then pySplit2 commaPat v
  else (v, v)

/-- `arch_date.split('-')[:4]` unpacked into four names; `none` models the
`ValueError` of unpacking fewer than four components. -/
def take4 (l : List (List Char)) :
    Option (List Char × List Char × List Char × List Char) :=
  match l with
  | y :: m :: d :: h :: _ => some (y, m, d, h)
  | _ => none

/-- The per-side structural check of `validate_date`: year exactly 4
characters, then month and day exactly 2 (`v[1:3]` zipped against
`('month', 'date')`); the hour component is never inspected. -/
def structCheck (side : String) : List (List Char) → Option DateError
  | y :: m :: d :: _ =>
    if y.length ≠ 4 then some (.improperValue "year" side)
    else if m.length ≠ 2 then some (.improperValue "month" side)
    else if d.length ≠ 2 then some (.improperValue "date" side)
    else none
  | _ => none

/-- `for k, v in zip(('lower', 'upper'), (lower, upper))`: the lower side
is checked fully before the upper side. -/
def structCheckBoth (lower upper : List (List Char)) : Option DateError :=
  match structCheck "lower" lower with
  | some e => some e
  | none => structCheck "upper" upper

/-- Python whitespace as `int()` strips it. -/
def isSpaceChar (c : Char) : Bool :=
  c = ' ' || c = '\t' || c = '\n' || c = '\r' || c = '\x0b' || c = '\x0c'

/-- Strip leading and trailing whitespace. -/
def trimSpaces (l : List Char) : List Char :=
  ((l.dropWhile isSpaceChar).reverse.dropWhile isSpaceChar).reverse

/-- Digit-string value. -/
def digitsToNat (l : List Char) : Nat :=
  l.foldl (fun acc c => acc * 10 + (c.toNat - '0'.toNat)) 0

/-- Model of Python's `int(s)`: optional surrounding whitespace, optional
sign, then a non-empty digit string; anything else raises `ValueError`
(`none`). -/
def pyInt (l : List Char) : Option Int :=
  match trimSpaces l with
  | [] => none
  | c :: rest =>
    if c = '-' then
      if rest ≠ [] ∧ rest.all Char.isDigit then some (-(digitsToNat rest : Int))
      else none
    else if c = '+' then
      if rest ≠ [] ∧ rest.all Char.isDigit then some ((digitsToNat rest : Int))
      else none
    else if (c :: rest).all Char.isDigit then some ((digitsToNat (c :: rest) : Int))
    else none

/-- `map(int, side)` with `ValueError` turning into `none`. -/
def intList : List (List Char) → Option (List Int)
  | [] => some []
  | x :: xs =>
    match pyInt x, intList xs with
    | some v, some vs => some (v :: vs)
    | _, _ => none

/-- `datetime.datetime(*side)` for the four-element component list. -/
def dtStage (vals : List Int) : Option PyDateTime :=
  match vals with
  | [y, m, d, h] => mkDatetime y m d h
  | _ => none

/-- The per-component bound extraction of `validate_date`: one
`parseComponent` per component, the left parts forming the lower bound and
the right parts the upper bound. -/
def parseBounds (y m d h : List Char) :
    List (List Char) × List (List Char) :=
  let ps := [parseComponent y, parseComponent m, parseComponent d, parseComponent h]
  (ps.map Prod.fst, ps.map Prod.snd)

/-- Stages of `validate_date` between component extraction and the range
check: structural check, integer conversion (`IMPROPER_TYPE` on failure),
`datetime` construction (propagated `ValueError` on failure). -/
def dateBoundsCore (y m d h : List Char) :
    Except DateError (PyDateTime × PyDateTime) :=
  let bounds := parseBounds y m d h
  match structCheckBoth bounds.1 bounds.2 with
  | some e => .error e
  | none =>
    match intList bounds.1, intList bounds.2 with
    | some lo, some up =>
      match dtStage lo, dtStage up with
      | some lodt, some updt => .ok (lodt, updt)
      | _, _ => .error .invalidDate
    | _, _ => .error .improperType

/-- The final range gate of `validate_date`:
`if in_valid_date_range(lower) and in_valid_date_range(upper): return
arch_date; raise DBPopulateError('_OUT_BRACKET')`. -/
def rangeGate (now lo up : PyDateTime) : Except DateError Unit :=
  if in_valid_date_range now lo && in_valid_date_range now up then .ok ()
  else .error .outBracket

/-- `validate_date` on the already split component list. -/
def validate_core (now : PyDateTime) (comps : List (List Char)) :
    Except DateError Unit :=
  match take4 comps with
  | none => .error .missingValue
  | some (y, m, d, h) =>
    match dateBoundsCore y m d h with
    | .error e => .error e
    | .ok (lo, up) => rangeGate now lo up

/-- `utils.validate_date(arch_date)`, with the current time explicit.  On
success it returns the input string itself. -/
def validate_date (now : PyDateTime) (arch_date : String) :
    Except DateError String :=
  match validate_core now (splitOnDash arch_date.data) with
  | .error e => .error e
  | .ok _ => .ok arch_date

/-- The lower/upper `datetime` pair `validate_date` computes for an
expression, when every stage before the range check passes. -/
def dateBoundsDT (arch_date : String) : Option (PyDateTime × PyDateTime) :=
  match take4 (splitOnDash arch_date.data) with
  | none => none
  | some (y, m, d, h) => (dateBoundsCore y m d h).toOption

/-- A fixed sample value for `datetime.datetime.now()`, well past the
dates the concrete test expressions use. -/
def sampleNow : PyDateTime := ⟨2013, 6, 1, 12⟩

/-! ## Mode selection (`populate_db.py`, `check_if_params`, lines 39-61) -/

/-- A Python value held in the argparse mapping. -/
inductive PyVal where
  | str (s : String)
  | bool (b : Bool)
  | list (l : List String)
  | none
deriving DecidableEq

/-- `gisc_msgs.VALID_ARGS = ('url', 'arch_date', 'src_dir', 'zip', 'files',
'temp')`.  Note that `delete_temp` is not in it. -/
def VALID_ARGS : List String :=
  ["url", "arch_date", "src_dir", "zip", "files", "temp"]

/-- The five acquisition modes (every valid argument except the
working-directory override `temp`). -/
def MODE_ARGS : List String :=
  ["url", "arch_date", "src_dir", "zip", "files"]

/-- Errors raised by `check_if_params`: `ImproperArgsError('NO_ARG', ...)`
and `ImproperArgsError('MULTIPLE_ARG', ...)`. -/
inductive ArgsError where
  | noArg
  | multipleArg
deriving DecidableEq

/-- `check_if_params(ap_args)`: keep only the keys in `VALID_ARGS`, count
them, subtract one if `temp` is present, subtract one if `delete_temp` is
present (dead: `delete_temp` never survives the filter), then raise on a
count of zero or more than one and otherwise return the filtered
mapping.  The mapping is an association list with (in actual runs)
pairwise distinct keys. -/
def check_if_params (args : List (String × PyVal)) :
    Except ArgsError (List (String × PyVal)) :=
  let filtered := args.filter (fun kv => decide (kv.1 ∈ VALID_ARGS))
  let n0 := filtered.length
  let n1 := if filtered.any (fun kv => decide (kv.1 = "temp")) then n0 - 1 else n0
  let n2 := if filtered.any (fun kv => decide (kv.1 = "delete_temp")) then n1 - 1 else n1
  if n2 = 0 then .error .noArg
  else if n2 > 1 then .error .multipleArg
  else .ok filtered

/-! ## File-list acquisition (`utils.py`, `handle_valid_invalid_files`,
lines 162-191, and the `files` branch of `populate_events`) -/

/-- The file-system facts the function observes: which paths are existing
regular files and which are existing directories. -/
structure FileSystem where
  files : List String
  dirs : List String

/-- `os.path.isfile`. -/
def isFile (fs : FileSystem) (p : String) : Bool :=
  decide (p ∈ fs.files)

/-- `os.path.isdir`. -/
def isDir (fs : FileSystem) (p : String) : Bool :=
  decide (p ∈ fs.dirs)

/-- `os.path.split(p)`: split at the last `'/'`; the head has its trailing
slashes removed unless it consists only of slashes; with no slash the head
is empty. -/
def pathSplitChars (p : List Char) : List Char × List Char :=
  let rev := p.reverse
  let tl := (rev.takeWhile (fun c => c ≠ '/')).reverse
  let restRev := rev.dropWhile (fun c => c ≠ '/')
  if restRev = [] then ([], tl)
  else
    let stripped := (restRev.dropWhile (fun c => c = '/')).reverse
    (if stripped = [] then restRev.reverse else stripped, tl)

/-- `os.path.split` on strings. -/
def pathSplit (p : String) : String × String :=
  let q := pathSplitChars p.data
  (⟨q.1⟩, ⟨q.2⟩)

/-- `os.path.join(path, fil)` for the two-argument uses in the source. -/
def pathJoin (p f : String) : String :=
  if f.data.head? = some '/' then f
  else if p = "" then f
  else if p.data.getLast? = some '/' then p ++ f
  else p ++ "/" ++ f

/-- `set(files)` modelled as order-preserving deduplication. -/
def pyDedupGo (seen : List String) : List String → List String
  | [] => []
  | x :: xs => if x ∈ seen then pyDedupGo seen xs else x :: pyDedupGo (x :: seen) xs

/-- `set(files)`. -/
def pyDedup (l : List String) : List String :=
  pyDedupGo [] l

/-- What one call of `handle_valid_invalid_files` does for one entry: the
source paths it copies into the destination (in iteration order) and the
invalid names put into the `InvalidArchFileError` that the function
raises and immediately catches and prints. -/
structure EntryResult where
  copied : List String
  invalid : List String
deriving DecidableEq

/-- The per-file loop of `handle_valid_invalid_files`: copy each existing
`os.path.join(path, fil)` and collect the others as invalid. -/
def entryLoop (fs : FileSystem) (path : String)
    (acc : List String × List String) :
    List String → List String × List String
  | [] => acc
  | fil :: rest =>
    let fp := pathJoin path fil
    if isFile fs fp then entryLoop fs path (acc.1 ++ [fp], acc.2) rest
    else entryLoop fs path (acc.1, acc.2 ++ [fil]) rest

/-- `handle_valid_invalid_files(cmd_line_arg, dest)`: split the entry on
commas dropping empty pieces (`none` models the `IndexError` on an empty
result), treat a first piece that is itself a file as directory plus
base name, mark the path invalid when it is not a directory or no file
names remain, then copy every resolvable file and collect every
unresolved name of this entry; the collected names are reported in a
per-entry error that the function itself catches and prints. -/
def handle_valid_invalid_files (fs : FileSystem) (cmd_line_arg : String) :
    Option EntryResult :=
  let parts := ((splitOnChar ',' cmd_line_arg.data).map
    (fun l => (⟨l⟩ : String))).filter (fun i => i ≠ "")
  match parts with
  | [] => Option.none
  | path0 :: files0 =>
    let pf :=
      if isFile fs path0 then
        let q := pathSplit path0
        (q.1, files0 ++ [q.2])
      else (path0, files0)
    let invalid0 :=
      if ¬ (isDir fs pf.1 = true) ∨ pf.2.length = 0 then [pf.1] else []
    let r := entryLoop fs pf.1 ([], invalid0) (pyDedup pf.2)
    some ⟨r.1, r.2⟩

/-- The `files` branch of `populate_events`:
`map(lambda x: handle_valid_invalid_files(x, arch_path), ap_args[arg])` —
each entry of the list is handled independently. -/
def filesMode (fs : FileSystem) (entries : List String) :
    Option (List EntryResult) :=
  entries.mapM (handle_valid_invalid_files fs)

/-! ## Helper notions and concrete sample data for the claims -/

/-- Look up a type's group in the grouping association list. -/
def getGroup (k : String) : List (String × List EventRecord) → List EventRecord
  | [] => []
  | (k', v) :: rest => if k' = k then v else getGroup k rest

/-- A decoded batch with 3 `WatchEvent` and 2 `PushEvent` records. -/
def sampleBatch : List EventRecord :=
  [⟨"WatchEvent", "w1"⟩, ⟨"PushEvent", "p1"⟩, ⟨"WatchEvent", "w2"⟩,
   ⟨"WatchEvent", "w3"⟩, ⟨"PushEvent", "p2"⟩]

/-- The storage writes the loader issues for `sampleBatch` with the
default allow-list. -/
def sampleWrites : List DBAction :=
  flushWrites (groupEvents POPULARITY_EVENTS sampleBatch)

/-- Is this action a bulk write into the named collection? -/
def isInsertTo (coll : String) : DBAction → Bool
  | .insert c _ => decide (c = coll)
  | _ => false

/-- Is this action a bulk write of exactly `n` records into the named
collection? -/
def isInsertSized (coll : String) (n : Nat) : DBAction → Bool
  | .insert c v => decide (c = coll) && decide (v.length = n)
  | _ => false

/-- A sample file system: directories `d1` and `d2`, one file `d1/a`. -/
def fsSample : FileSystem := ⟨["d1/a"], ["d1", "d2"]⟩

/-! ## Helper lemmas -/

theorem getGroup_addEvent (gs : List (String × List EventRecord)) (ty k : String)
    (r : EventRecord) :
    getGroup k (addEvent gs ty r) =
      if ty = k then getGroup k gs ++ [r] else getGroup k gs := by
  induction gs with
  | nil =>
    by_cases h : ty = k <;> simp [addEvent, getGroup, h]
  | cons kv rest ih =>
    obtain ⟨k', v⟩ := kv
    by_cases h1 : k' = ty
    · subst h1
      by_cases h2 : k' = k
      · subst h2
        simp [addEvent, getGroup]
      · have h3 : ¬ k' = k := h2
        simp [addEvent, getGroup, h3]
    · by_cases h2 : k' = k
      · subst h2
        have h3 : ¬ ty = k' := fun hh => h1 hh.symm
        simp [addEvent, getGroup, h1, h3]
      · simp [addEvent, getGroup, h1, h2, ih]

theorem groupEvents_getGroup (allow : List String) (rs : List EventRecord) (k : String) :
    getGroup k (groupEvents allow rs) =
      rs.filter (fun r => decide (r.type = k) && decide (r.type ∈ allow)) := by
  suffices hgen : ∀ (rs : List EventRecord) (gs : List (String × List EventRecord)),
      getGroup k (rs.foldl
        (fun gs r => if r.type ∈ allow then addEvent gs r.type r else gs) gs) =
      getGroup k gs ++
        rs.filter (fun r => decide (r.type = k) && decide (r.type ∈ allow)) by
    have h := hgen rs []
    simpa [groupEvents, getGroup] using h
  intro rs
  induction rs with
  | nil => intro gs; simp
  | cons r rest ih =>
    intro gs
    simp only [List.foldl_cons]
    by_cases ha : r.type ∈ allow
    · rw [if_pos ha, ih, getGroup_addEvent]
      by_cases hk : r.type = k
      · have ha' : k ∈ allow := hk ▸ ha
        simp [List.filter_cons, hk, ha, ha']
      · simp [List.filter_cons, hk, ha]
    · rw [if_neg ha, ih]
      simp [List.filter_cons, ha]

theorem mem_addEvent {kv : String × List EventRecord}
    (gs : List (String × List EventRecord)) (ty : String) (r : EventRecord)
    (h : kv ∈ addEvent gs ty r) : kv ∈ gs ∨ (kv.1 = ty ∧ kv.2 ≠ []) := by
  induction gs with
  | nil =>
    simp [addEvent] at h
    right
    rw [h]
    simp
  | cons kv' rest ih =>
    obtain ⟨k', v⟩ := kv'
    by_cases h1 : k' = ty
    · subst h1
      simp [addEvent] at h
      rcases h with h | h
      · right
        rw [h]
        simp
      · left
        simp [h]
    · simp [addEvent, h1] at h
      rcases h with h | h
      · left
        simp [h]
      · rcases ih h with h' | h'
        · left
          simp [h']
        · right
          exact h'

theorem groupEvents_mem (allow : List String) (rs : List EventRecord)
    {kv : String × List EventRecord} (h : kv ∈ groupEvents allow rs) :
    kv.1 ∈ allow ∧ kv.2 ≠ [] := by
  suffices hgen : ∀ (rs : List EventRecord) (gs : List (String × List EventRecord)),
      (∀ kv' ∈ gs, kv'.1 ∈ allow ∧ kv'.2 ≠ []) →
      ∀ kv' ∈ rs.foldl
        (fun gs r => if r.type ∈ allow then addEvent gs r.type r else gs) gs,
        kv'.1 ∈ allow ∧ kv'.2 ≠ [] by
    exact hgen rs [] (by simp) kv h
  intro rs
  induction rs with
  | nil => intro gs hgs kv' hkv'; exact hgs kv' hkv'
  | cons r rest ih =>
    intro gs hgs kv' hkv'
    simp only [List.foldl_cons] at hkv'
    by_cases ha : r.type ∈ allow
    · rw [if_pos ha] at hkv'
      refine ih _ ?_ kv' hkv'
      intro kv'' hkv''
      rcases mem_addEvent gs r.type r hkv'' with h' | h'
      · exact hgs kv'' h'
      · exact ⟨h'.1 ▸ ha, h'.2⟩
    · rw [if_neg ha] at hkv'
      exact ih _ hgs kv' hkv'

theorem flushWrites_eq_bind (gs : List (String × List EventRecord))
    (h : ∀ kv ∈ gs, kv.2 ≠ []) :
    flushWrites gs =
      gs.flatMap (fun g => [.insert g.1 g.2, .insert ALL_COLL g.2]) := by
  induction gs with
  | nil => rfl
  | cons kv rest ih =>
    obtain ⟨k, v⟩ := kv
    have hv : v ≠ [] := by
      have := h (k, v) (by simp)
      simpa using this
    have hlen : ¬ (v.length = 0) := by
      simpa [List.length_eq_zero] using hv
    have hrest : ∀ kv' ∈ rest, kv'.2 ≠ [] := fun kv' hkv' => h kv' (by simp [hkv'])
    simp [flushWrites, hlen, ih hrest]



theorem digit_not_brace {c : Char} (h : c.isDigit = true) : isBrace c = false := by
  by_cases h1 : c = '\x7b'
  · subst h1; exact absurd h (by decide)
  · by_cases h2 : c = '\x7d'
    · subst h2; exact absurd h (by decide)
    · simp [isBrace, h1, h2]

theorem digit_not_space {c : Char} (h : c.isDigit = true) : isSpaceChar c = false := by
  by_cases h1 : c = ' '
  · subst h1; exact absurd h (by decide)
  · by_cases h2 : c = '\t'
    · subst h2; exact absurd h (by decide)
    · by_cases h3 : c = '\n'
      · subst h3; exact absurd h (by decide)
      · by_cases h4 : c = '\r'
        · subst h4; exact absurd h (by decide)
        · by_cases h5 : c = '\x0b'
          · subst h5; exact absurd h (by decide)
          · by_cases h6 : c = '\x0c'
            · subst h6; exact absurd h (by decide)
            · simp [isSpaceChar, h1, h2, h3, h4, h5, h6]

theorem dropWhile_eq_self_of_all_digits {p : Char → Bool} {l : List Char}
    (hall : l.all Char.isDigit = true)
    (hp : ∀ c, c.isDigit = true → p c = false) :
    l.dropWhile p = l := by
  cases l with
  | nil => rfl
  | cons c rest =>
    have hc : c.isDigit = true := by
      simp [List.all_cons] at hall
      exact hall.1
    simp [List.dropWhile_cons, hp c hc]

theorem all_digits_reverse {l : List Char} (h : l.all Char.isDigit = true) :
    l.reverse.all Char.isDigit = true := by
  simpa using h

theorem stripBraces_digits {l : List Char} (h : l.all Char.isDigit = true) :
    stripBraces l = l := by
  unfold stripBraces
  rw [dropWhile_eq_self_of_all_digits h (fun c hc => digit_not_brace hc),
      dropWhile_eq_self_of_all_digits (all_digits_reverse h)
        (fun c hc => digit_not_brace hc),
      List.reverse_reverse]

theorem trimSpaces_digits {l : List Char} (h : l.all Char.isDigit = true) :
    trimSpaces l = l := by
  unfold trimSpaces
  rw [dropWhile_eq_self_of_all_digits h (fun c hc => digit_not_space hc),
      dropWhile_eq_self_of_all_digits (all_digits_reverse h)
        (fun c hc => digit_not_space hc),
      List.reverse_reverse]

theorem breakSub_none_of_head_notMem {p : Char} {ps l : List Char}
    (h : p ∉ l) : breakSub (p :: ps) l = none := by
  induction l with
  | nil => rfl
  | cons c rest ih =>
    have h' : ¬ p = c ∧ p ∉ rest := by
      constructor
      · intro hh; exact h (by simp [hh])
      · intro hh; exact h (by simp [hh])
    have hlw : leadsWith (p :: ps) (c :: rest) = false := by
      simp [leadsWith, h'.1]
    unfold breakSub
    rw [hlw]
    simp [ih h'.2]

theorem not_mem_of_all_digits {c : Char} {l : List Char} (hc : c.isDigit = false)
    (h : l.all Char.isDigit = true) : c ∉ l := by
  intro hmem
  have := List.all_eq_true.mp h c hmem
  rw [hc] at this
  exact Bool.noConfusion this

theorem parseComponent_digits {l : List Char} (h : l.all Char.isDigit = true) :
    parseComponent l = (l, l) := by
  unfold parseComponent
  rw [stripBraces_digits h]
  have h1 : pyIn dotdot l = false := by
    unfold pyIn dotdot
    rw [breakSub_none_of_head_notMem (not_mem_of_all_digits (by decide) h)]
    rfl
  have h2 : pyIn commaPat l = false := by
    unfold pyIn commaPat
    rw [breakSub_none_of_head_notMem (not_mem_of_all_digits (by decide) h)]
    rfl
  simp [h1, h2]

theorem pyInt_digits {l : List Char} (hne : l ≠ []) (h : l.all Char.isDigit = true) :
    pyInt l = some ((digitsToNat l : Int)) := by
  unfold pyInt
  rw [trimSpaces_digits h]
  cases l with
  | nil => exact absurd rfl hne
  | cons c rest =>
    have hc : c.isDigit = true := by
      simp [List.all_cons] at h
      exact h.1
    have hcm : ¬ (c = '-') := by
      intro hh; subst hh; exact absurd hc (by decide)
    have hcp : ¬ (c = '+') := by
      intro hh; subst hh; exact absurd hc (by decide)
    simp [hcm, hcp, h]

theorem rangeGate_eq (now lo up : PyDateTime) :
    rangeGate now lo up =
      if (dtLt START_DATE lo && dtLt lo now && dtLt START_DATE up && dtLt up now) = true
      then .ok () else .error .outBracket := by
  unfold rangeGate in_valid_date_range
  cases h1 : dtLt START_DATE lo <;> cases h2 : dtLt lo now <;>
    cases h3 : dtLt START_DATE up <;> cases h4 : dtLt up now <;> simp


theorem rawDecode_shift (s : Segment) (rest : List Segment) (i : Nat)
    (hpos : 0 < s.len) :
    rawDecode (s :: rest) (s.len + i) =
      (rawDecode rest i).map (fun p => (p.1, p.2 + s.len)) := by
  have h0 : ¬ (s.len + i = 0) := by omega
  have h1 : ¬ (s.len + i < s.len) := by omega
  conv_lhs => unfold rawDecode
  rw [if_neg h0, if_neg h1, Nat.add_sub_cancel_left]
  cases hr : rawDecode rest i with
  | none => simp
  | some p => cases p with | mk r e => simp

theorem decodeLoop_shift (s : Segment) (rest : List Segment) (T : Nat)
    (hpos : 0 < s.len) :
    ∀ fuel i, decodeLoop (rawDecode (s :: rest)) (s.len + T) fuel (s.len + i) =
      decodeLoop (rawDecode rest) T fuel i := by
  intro fuel
  induction fuel with
  | zero =>
    intro i
    unfold decodeLoop
    by_cases h : i = T
    · have heq : s.len + i = s.len + T := by omega
      simp [h, heq]
    · have hne : ¬ (s.len + i = s.len + T) := by omega
      simp [h, hne]
  | succ n ih =>
    intro i
    unfold decodeLoop
    by_cases h : i = T
    · have heq : s.len + i = s.len + T := by omega
      simp [h, heq]
    · have hne : ¬ (s.len + i = s.len + T) := by omega
      simp only [hne, h, if_false]
      rw [rawDecode_shift s rest i hpos]
      cases hr : rawDecode rest i with
      | none => simp
      | some p =>
        cases p with
        | mk r e =>
          simp only [Option.map_some']
          rw [Nat.add_comm e s.len, ih e]

theorem entryLoop_copied_isFile (fs : FileSystem) (path : String) :
    ∀ (files : List String) (acc : List String × List String),
      (∀ f ∈ acc.1, isFile fs f = true) →
      ∀ f ∈ (entryLoop fs path acc files).1, isFile fs f = true := by
  intro files
  induction files with
  | nil => intro acc hacc f hf; exact hacc f hf
  | cons fil rest ih =>
    intro acc hacc f hf
    unfold entryLoop at hf
    by_cases hc : isFile fs (pathJoin path fil) = true
    · rw [if_pos hc] at hf
      refine ih _ ?_ f hf
      intro g hg
      rcases List.mem_append.mp hg with h' | h'
      · exact hacc g h'
      · have hg' : g = pathJoin path fil := by simpa using h'
        rw [hg']
        exact hc
    · rw [if_neg hc] at hf
      exact ih (acc.1, acc.2 ++ [fil]) hacc f hf

theorem valid_filter_length (args : List (String × PyVal)) :
    (args.filter (fun kv => decide (kv.1 ∈ VALID_ARGS))).length =
      (args.filter (fun kv => decide (kv.1 ∈ MODE_ARGS))).length +
      (args.filter (fun kv => decide (kv.1 = "temp"))).length := by
  induction args with
  | nil => rfl
  | cons kv rest ih =>
    by_cases ht : kv.1 = "temp"
    · have h1 : decide (kv.1 ∈ VALID_ARGS) = true := by rw [ht]; decide
      have h2 : ¬ (decide (kv.1 ∈ MODE_ARGS) = true) := by rw [ht]; decide
      have h3 : decide (kv.1 = "temp") = true := decide_eq_true ht
      simp only [List.filter_cons]
      rw [if_pos h1, if_neg h2, if_pos h3, List.length_cons, List.length_cons, ih]
      omega
    · by_cases hm : kv.1 ∈ MODE_ARGS
      · have hv : kv.1 ∈ VALID_ARGS := by
          rw [show VALID_ARGS = MODE_ARGS ++ ["temp"] from rfl]
          exact List.mem_append_left _ hm
        have h1 : decide (kv.1 ∈ VALID_ARGS) = true := decide_eq_true hv
        have h2 : decide (kv.1 ∈ MODE_ARGS) = true := decide_eq_true hm
        have h3 : ¬ (decide (kv.1 = "temp") = true) := by simp [ht]
        simp only [List.filter_cons]
        rw [if_pos h1, if_pos h2, if_neg h3, List.length_cons, List.length_cons, ih]
        omega
      · have hv : ¬ (kv.1 ∈ VALID_ARGS) := by
          intro hcontra
          rw [show VALID_ARGS = MODE_ARGS ++ ["temp"] from rfl] at hcontra
          rcases List.mem_append.mp hcontra with hcl | hcr
          · exact hm hcl
          · have hk : kv.1 = "temp" := by simpa using hcr
            exact ht hk
        have h1 : ¬ (decide (kv.1 ∈ VALID_ARGS) = true) := by simp [hv]
        have h2 : ¬ (decide (kv.1 ∈ MODE_ARGS) = true) := by simp [hm]
        have h3 : ¬ (decide (kv.1 = "temp") = true) := by simp [ht]
        simp only [List.filter_cons]
        rw [if_neg h1, if_neg h2, if_neg h3, ih]

theorem temp_count_le_one (args : List (String × PyVal))
    (hnd : (args.map Prod.fst).Nodup) :
    (args.filter (fun kv => decide (kv.1 = "temp"))).length ≤ 1 := by
  induction args with
  | nil => simp
  | cons kv rest ih =>
    rw [List.map_cons, List.nodup_cons] at hnd
    by_cases ht : kv.1 = "temp"
    · have hnone : rest.filter (fun kv' => decide (kv'.1 = "temp")) = [] := by
        rw [List.filter_eq_nil_iff]
        intro a ha
        simp only [decide_eq_true_eq]
        intro hk
        exact hnd.1 (List.mem_map.mpr ⟨a, ha, by rw [hk, ht]⟩)
      simp [List.filter_cons, ht, hnone]
    · simp only [List.filter_cons, decide_eq_true_eq, ht, if_false]
      exact ih hnd.2

/-! ## The claims -/

/-- C1: the archive decode loop maintains a cursor starting at 0,
decodes one object per step advancing the cursor to the index just past
that object, and stops when the cursor reaches the buffer's end; for any
buffer of concatenated serialized objects (each of positive length) it
yields exactly the source objects in buffer order, each structurally
equal to its source — in particular a buffer of exactly two concatenated
JSON objects with no separator yields exactly those two records in
order. -/
theorem C1_decode_loop (segs : List Segment) (hpos : ∀ s ∈ segs, 0 < s.len) :
    decodeAll segs = some (segs.map (fun s => s.record)) := by
  induction segs with
  | nil => rfl
  | cons s rest ih =>
    have hs : 0 < s.len := hpos s (by simp)
    have hrest : ∀ t ∈ rest, 0 < t.len := fun t ht => hpos t (by simp [ht])
    have hr := ih hrest
    unfold decodeAll at hr ⊢
    have hbuf : bufLen (s :: rest) = s.len + bufLen rest := by
      simp [bufLen]
    have hlen : (s :: rest).length = rest.length + 1 := by simp
    rw [hbuf, hlen]
    unfold decodeLoop
    have hne : ¬ (0 = s.len + bufLen rest) := by omega
    simp only [hne, if_false]
    have hrd : rawDecode (s :: rest) 0 = some (s.record, s.len) := by
      unfold rawDecode; simp
    simp only [hrd]
    have hshift := decodeLoop_shift s rest (bufLen rest) hs rest.length 0
    rw [Nat.add_zero] at hshift
    rw [hshift, hr]
    simp

theorem C1_decode_loop_witness :
    decodeAll [⟨⟨"WatchEvent", "w1"⟩, 20⟩, ⟨⟨"PushEvent", "p1"⟩, 22⟩] =
      some [⟨"WatchEvent", "w1"⟩, ⟨"PushEvent", "p1"⟩] :=
  C1_decode_loop [⟨⟨"WatchEvent", "w1"⟩, 20⟩, ⟨⟨"PushEvent", "p1"⟩, 22⟩]
    (by decide)

/-- C2 counterexample: for the batch of 3 `WatchEvent` and 2 `PushEvent`
records, the loader issues the claimed 3-record write to `WatchEvent` and
2-record write to `PushEvent`, but no 5-record write to the catch-all
collection exists: `AllEvent` receives two writes (of 3 and of 2
records). -/
theorem C2_counterexample :
    (sampleWrites.filter (isInsertSized "WatchEvent" 3)).length = 1 ∧
    (sampleWrites.filter (isInsertSized "PushEvent" 2)).length = 1 ∧
    (sampleWrites.filter (isInsertTo "AllEvent")).length = 2 ∧
    (sampleWrites.filter (isInsertSized "AllEvent" 5)).length = 0 := by
  decide

/-- C2 (amended): the loader groups records by their `type` field in
arrival order, discards records whose type is outside the allow-list, and
for each non-empty per-type group issues one bulk write of that group to
the type-named collection followed by a second bulk write of the same
records to the catch-all collection; the 3 `WatchEvent` + 2 `PushEvent`
batch hence produces a 3-record write to `WatchEvent` and a 2-record
write to `PushEvent`, each followed by a write of the same records to
`AllEvent` (two catch-all writes of 3 and 2 records, not one of 5). -/
theorem C2_loader_amended (allow : List String) (rs : List EventRecord) :
    (∀ k, getGroup k (groupEvents allow rs) =
      rs.filter (fun r => decide (r.type = k) && decide (r.type ∈ allow))) ∧
    (∀ kv ∈ groupEvents allow rs, kv.1 ∈ allow ∧ kv.2 ≠ []) ∧
    flushWrites (groupEvents allow rs) =
      (groupEvents allow rs).flatMap
        (fun g => [.insert g.1 g.2, .insert ALL_COLL g.2]) ∧
    sampleWrites =
      [.insert "WatchEvent"
         [⟨"WatchEvent", "w1"⟩, ⟨"WatchEvent", "w2"⟩, ⟨"WatchEvent", "w3"⟩],
       .insert ALL_COLL
         [⟨"WatchEvent", "w1"⟩, ⟨"WatchEvent", "w2"⟩, ⟨"WatchEvent", "w3"⟩],
       .insert "PushEvent" [⟨"PushEvent", "p1"⟩, ⟨"PushEvent", "p2"⟩],
       .insert ALL_COLL [⟨"PushEvent", "p1"⟩, ⟨"PushEvent", "p2"⟩]] :=
  ⟨fun k => groupEvents_getGroup allow rs k,
   fun kv hkv => groupEvents_mem allow rs hkv,
   flushWrites_eq_bind _ (fun kv hkv => (groupEvents_mem allow rs hkv).2),
   by decide⟩

theorem C2_loader_amended_witness :
    "WatchEvent" ∈ POPULARITY_EVENTS ∧
      ([⟨"WatchEvent", "w1"⟩, ⟨"WatchEvent", "w2"⟩,
        ⟨"WatchEvent", "w3"⟩] : List EventRecord) ≠ [] :=
  (C2_loader_amended POPULARITY_EVENTS sampleBatch).2.1
    ("WatchEvent",
     [⟨"WatchEvent", "w1"⟩, ⟨"WatchEvent", "w2"⟩, ⟨"WatchEvent", "w3"⟩])
    (by decide)

/-- C3 counterexample: with two file-list entries each containing one
unresolvable name, the unresolved names are not collected across the
entire list into a single error: each entry produces its own error
listing only that entry's invalid names. -/
theorem C3_counterexample :
    filesMode fsSample ["d1,a,m1", "d2,b"] =
      some [⟨["d1/a"], ["m1"]⟩, ⟨[], ["b"]⟩] ∧
    ((filesMode fsSample ["d1,a,m1", "d2,b"]).getD []).all
      (fun e => !(decide ("m1" ∈ e.invalid) && decide ("b" ∈ e.invalid))) = true := by
  decide

/-- C3 (amended): each file-list entry is processed independently: the
entry's resolvable files are copied into the working directory, all of
that entry's unresolved names are collected (not fail-fast within the
entry), and a per-entry error listing them is raised and immediately
caught and logged; an entry naming one existing and one missing file
copies the existing file and reports exactly the missing one, and only
files that exist are ever copied. -/
theorem C3_per_entry_amended :
    handle_valid_invalid_files fsSample "d1,m1,a" = some ⟨["d1/a"], ["m1"]⟩ ∧
    (∀ (fs : FileSystem) (e : String) (res : EntryResult),
      handle_valid_invalid_files fs e = some res →
      ∀ f ∈ res.copied, isFile fs f = true) := by
  refine ⟨by decide, ?_⟩
  intro fs e res hres f hf
  unfold handle_valid_invalid_files at hres
  cases hp : ((splitOnChar ',' e.data).map
      (fun l => (⟨l⟩ : String))).filter (fun i => i ≠ "") with
  | nil => rw [hp] at hres; exact absurd hres (by simp)
  | cons path0 files0 =>
    rw [hp] at hres
    dsimp only at hres
    have hres' := Option.some.inj hres
    rw [← hres'] at hf
    dsimp only at hf
    exact entryLoop_copied_isFile fs _ _ _ (by simp) f hf

theorem C3_per_entry_amended_witness :
    handle_valid_invalid_files fsSample "d1,a,m1" = some ⟨["d1/a"], ["m1"]⟩ ∧
    isFile fsSample "d1/a" = true :=
  ⟨by decide,
   C3_per_entry_amended.2 fsSample "d1,a,m1" ⟨["d1/a"], ["m1"]⟩ (by decide)
     "d1/a" (by decide)⟩

/-- C4: when every stage before the range check succeeds with bounds
`lo` and `up`, date-range validation succeeds exactly when both bounds
lie strictly between the earliest archive instant 2011-02-12T00:00:00
and the current time, and raises the out-of-bracket error otherwise; a
bound equal to the earliest instant is rejected by the strict
comparison. -/
theorem C4_range_gate (now : PyDateTime) (s : String) (lo up : PyDateTime)
    (hb : dateBoundsDT s = some (lo, up)) :
    (validate_date now s = .ok s ↔
      (dtLt START_DATE lo && dtLt lo now && dtLt START_DATE up && dtLt up now) = true) ∧
    ((dtLt START_DATE lo && dtLt lo now && dtLt START_DATE up && dtLt up now) = false →
      validate_date now s = .error .outBracket) := by
  unfold dateBoundsDT at hb
  unfold validate_date validate_core
  cases ht : take4 (splitOnDash s.data) with
  | none => rw [ht] at hb; exact absurd hb (by simp)
  | some q =>
    rw [ht] at hb
    obtain ⟨y, m, d, h⟩ := q
    dsimp only at hb ⊢
    cases hc : dateBoundsCore y m d h with
    | error e =>
      rw [hc] at hb
      exact absurd hb (by simp [Except.toOption])
    | ok p =>
      rw [hc] at hb
      obtain ⟨lo', up'⟩ := p
      simp only [Except.toOption, Prod.mk.injEq] at hb
      obtain ⟨rfl, rfl⟩ := hb
      dsimp only
      rw [rangeGate_eq]
      cases h1 : dtLt START_DATE lo <;> cases h2 : dtLt lo now <;>
        cases h3 : dtLt START_DATE up <;> cases h4 : dtLt up now <;>
        simp [h1, h2, h3, h4]

theorem C4_range_gate_witness :
    validate_date sampleNow "2011-02-12-0" = .error .outBracket :=
  (C4_range_gate sampleNow "2011-02-12-0" START_DATE START_DATE
    (by decide)).2 (by decide)

/-- C5: for a well-formed unbraced `YYYY-MM-DD-HH` expression — four
`-`-separated all-digit components of lengths 4, 2, 2 and any hour
length, whose integer values form a valid date and hour inside the valid
range — validation succeeds and returns the input string itself,
unmodified. -/
theorem C5_gate (now : PyDateTime) (s : String)
    (y m d h : List Char)
    (hsplit : splitOnDash s.data = [y, m, d, h])
    (hy : y.all Char.isDigit = true) (hm : m.all Char.isDigit = true)
    (hd : d.all Char.isDigit = true) (hh : h.all Char.isDigit = true)
    (hylen : y.length = 4) (hmlen : m.length = 2) (hdlen : d.length = 2)
    (yv mv dv hv : Int)
    (hyv : pyInt y = some yv) (hmv : pyInt m = some mv)
    (hdv : pyInt d = some dv) (hhv : pyInt h = some hv)
    (dt : PyDateTime) (hdt : mkDatetime yv mv dv hv = some dt)
    (hrange : in_valid_date_range now dt = true) :
    validate_date now s = .ok s := by
  unfold validate_date validate_core
  rw [hsplit]
  dsimp only [take4]
  unfold dateBoundsCore parseBounds
  rw [parseComponent_digits hy, parseComponent_digits hm,
      parseComponent_digits hd, parseComponent_digits hh]
  dsimp only [List.map]
  have hstruct : structCheckBoth [y, m, d, h] [y, m, d, h] = Option.none := by
    unfold structCheckBoth structCheck
    simp [hylen, hmlen, hdlen]
  rw [hstruct]
  have hints : intList [y, m, d, h] = some [yv, mv, dv, hv] := by
    simp [intList, hyv, hmv, hdv, hhv]
  rw [hints]
  dsimp only [dtStage]
  rw [hdt]
  simp [rangeGate, hrange]

theorem C5_gate_witness :
    validate_date sampleNow "2012-04-05-2" = .ok "2012-04-05-2" :=
  C5_gate sampleNow "2012-04-05-2" "2012".data "04".data "05".data "2".data
    (by decide) (by decide) (by decide) (by decide) (by decide)
    (by decide) (by decide) (by decide)
    2012 4 5 2 (by decide) (by decide) (by decide) (by decide)
    ⟨2012, 4, 5, 2⟩ (by decide) (by decide)

/-- C6: each date-range component is stripped of surrounding braces,
`..` is recognized as the range delimiter in preference to `,`, a
delimited component splits into lower and upper values, and an
undelimited component is used for both bounds; the expression
`2012-04-\x7b05..25\x7d-\x7b2..18\x7d` hence resolves to lower bound
2012-04-05 hour 2 and upper bound 2012-04-25 hour 18. -/
theorem C6_component_parsing :
    dateBoundsDT "2012-04-\x7b05..25\x7d-\x7b2..18\x7d" =
      some (⟨2012, 4, 5, 2⟩, ⟨2012, 4, 25, 18⟩) ∧
    parseComponent "\x7b2,5..18\x7d".data = ("2,5".data, "18".data) ∧
    (∀ val, pyIn dotdot (stripBraces val) = false →
      pyIn commaPat (stripBraces val) = false →
      parseComponent val = (stripBraces val, stripBraces val)) := by
  refine ⟨by decide, by decide, ?_⟩
  intro val h1 h2
  unfold parseComponent
  simp [h1, h2]

theorem C6_component_parsing_witness :
    parseComponent "07".data = ("07".data, "07".data) :=
  C6_component_parsing.2.2 "07".data (by decide) (by decide)

/-- C7: structural validation requires the year component to be exactly
4 characters and the month and day exactly 2, checked for the lower and
then the upper bound, raising the improper-value error naming the
offending field (`year`, `month` or `date`) and bound side;
`2012-4-05-2` raises it for the month field on the lower side, and the
hour component's length is never constrained. -/
theorem C7_structural :
    validate_date sampleNow "2012-4-05-2" =
      .error (.improperValue "month" "lower") ∧
    validate_date sampleNow "212-04-05-2" =
      .error (.improperValue "year" "lower") ∧
    validate_date sampleNow "2012-04-5-2" =
      .error (.improperValue "date" "lower") ∧
    validate_date sampleNow "2012-\x7b04..4\x7d-05-2" =
      .error (.improperValue "month" "upper") ∧
    validate_date sampleNow "2012-04-05-00002" = .ok "2012-04-05-00002" ∧
    (∀ (side : String) (y m d : List Char) (rest rest' : List (List Char)),
      structCheck side (y :: m :: d :: rest) =
        structCheck side (y :: m :: d :: rest')) := by
  refine ⟨by decide, by decide, by decide, by decide, by decide, ?_⟩
  intro side y m d rest rest'
  rfl

theorem C7_structural_witness :
    validate_date sampleNow "2012-4-05-2" =
      .error (.improperValue "month" "lower") :=
  C7_structural.1

/-- C8: `populate` checks its two preconditions in order before opening
any archive or storage connection — a missing working directory raises
the missing-path error and an existing directory with no matching
archive file raises the emptiness error, in both cases with no storage
action performed at all. -/
theorem C8_preconditions (env : ArchiveEnv) (allow : List String) :
    (env.isDir = false → populate env allow = ([], some .invalidArchPath)) ∧
    (env.isDir = true → env.gzFiles = [] →
      populate env allow = ([], some .noArchiveFiles)) := by
  constructor
  · intro h1
    simp [populate, h1]
  · intro h1 h2
    simp [populate, h1, h2]

theorem C8_preconditions_witness :
    populate ⟨false, [[⟨⟨"WatchEvent", "w"⟩, 3⟩]]⟩ POPULARITY_EVENTS =
      ([], some .invalidArchPath) ∧
    populate ⟨true, []⟩ POPULARITY_EVENTS = ([], some .noArchiveFiles) :=
  ⟨(C8_preconditions ⟨false, [[⟨⟨"WatchEvent", "w"⟩, 3⟩]]⟩ POPULARITY_EVENTS).1 rfl,
   (C8_preconditions ⟨true, []⟩ POPULARITY_EVENTS).2 rfl rfl⟩

/-- C9 counterexample: with exactly one mode supplied the mapping does
not pass through unchanged: the ubiquitous `delete_temp` key (always
present in an argparse run) is filtered out of the returned mapping. -/
theorem C9_counterexample :
    check_if_params
        [("src_dir", PyVal.str "/a"), ("delete_temp", PyVal.bool false)] =
      .ok [("src_dir", PyVal.str "/a")] ∧
    ([("src_dir", PyVal.str "/a")] : List (String × PyVal)) ≠
      [("src_dir", PyVal.str "/a"), ("delete_temp", PyVal.bool false)] := by
  decide

/-- C9 (amended): for a mapping with distinct keys, zero supplied
acquisition modes raises the zero-mode argument error and more than one
raises the multiple-mode error; with exactly one mode supplied the
function returns the mapping restricted to the recognized keys (the five
modes plus `temp`), dropping `delete_temp` and any unrecognized keys
rather than passing the mapping through unchanged. -/
theorem C9_mode_selection_amended (args : List (String × PyVal))
    (hnd : (args.map Prod.fst).Nodup) :
    ((args.filter (fun kv => decide (kv.1 ∈ MODE_ARGS))).length = 0 →
      check_if_params args = .error .noArg) ∧
    ((args.filter (fun kv => decide (kv.1 ∈ MODE_ARGS))).length > 1 →
      check_if_params args = .error .multipleArg) ∧
    ((args.filter (fun kv => decide (kv.1 ∈ MODE_ARGS))).length = 1 →
      check_if_params args =
        .ok (args.filter (fun kv => decide (kv.1 ∈ VALID_ARGS)))) := by
  have hdel : (args.filter (fun kv => decide (kv.1 ∈ VALID_ARGS))).any
      (fun kv => decide (kv.1 = "delete_temp")) = false := by
    rw [Bool.eq_false_iff]
    intro hany
    rcases List.any_eq_true.mp hany with ⟨kv, hkv, hk⟩
    rcases List.mem_filter.mp hkv with ⟨-, hvm⟩
    simp only [decide_eq_true_eq] at hk hvm
    rw [hk] at hvm
    exact absurd hvm (by decide)
  have hcount := valid_filter_length args
  have key : check_if_params args =
      if (args.filter (fun kv => decide (kv.1 ∈ MODE_ARGS))).length = 0 then
        .error .noArg
      else if (args.filter (fun kv => decide (kv.1 ∈ MODE_ARGS))).length > 1 then
        .error .multipleArg
      else .ok (args.filter (fun kv => decide (kv.1 ∈ VALID_ARGS))) := by
    by_cases htany : (args.filter (fun kv => decide (kv.1 ∈ VALID_ARGS))).any
        (fun kv => decide (kv.1 = "temp")) = true
    · have htle := temp_count_le_one args hnd
      have h1 : (args.filter (fun kv => decide (kv.1 = "temp"))).length = 1 := by
        rcases List.any_eq_true.mp htany with ⟨kv, hkv, hk⟩
        rcases List.mem_filter.mp hkv with ⟨hmem, -⟩
        have hmemt : kv ∈ args.filter (fun kv' => decide (kv'.1 = "temp")) :=
          List.mem_filter.mpr ⟨hmem, hk⟩
        have hpos : 0 < (args.filter (fun kv' => decide (kv'.1 = "temp"))).length :=
          List.length_pos.mpr (fun hnil => by
            rw [hnil] at hmemt
            exact absurd hmemt (List.not_mem_nil kv))
        omega
      have hfl : (args.filter (fun kv => decide (kv.1 ∈ VALID_ARGS))).length =
          (args.filter (fun kv => decide (kv.1 ∈ MODE_ARGS))).length + 1 := by
        omega
      simp only [check_if_params, htany, hdel, hfl]
      simp [Nat.add_sub_cancel]
    · have htany' : (args.filter (fun kv => decide (kv.1 ∈ VALID_ARGS))).any
          (fun kv => decide (kv.1 = "temp")) = false := by
        rw [Bool.eq_false_iff]
        exact htany
      have h0 : (args.filter (fun kv => decide (kv.1 = "temp"))).length = 0 := by
        rw [List.length_eq_zero, List.filter_eq_nil_iff]
        intro kv hkv
        simp only [decide_eq_true_eq]
        intro hk
        apply htany
        refine List.any_eq_true.mpr ⟨kv, List.mem_filter.mpr ⟨hkv, ?_⟩, ?_⟩
        · rw [hk]; decide
        · simp [hk]
      have hfl : (args.filter (fun kv => decide (kv.1 ∈ VALID_ARGS))).length =
          (args.filter (fun kv => decide (kv.1 ∈ MODE_ARGS))).length := by
        omega
      simp only [check_if_params, htany', hdel, hfl]
      simp
  refine ⟨?_, ?_, ?_⟩ <;> intro hmc
  · rw [key, if_pos hmc]
  · rw [key, if_neg (by omega), if_pos hmc]
  · rw [key, if_neg (by omega), if_neg (by omega)]

theorem C9_mode_selection_witness :
    check_if_params
        [("zip", PyVal.str "/z"), ("temp", PyVal.str "/t"),
         ("delete_temp", PyVal.bool true)] =
      .ok [("zip", PyVal.str "/z"), ("temp", PyVal.str "/t")] :=
  (C9_mode_selection_amended
      [("zip", PyVal.str "/z"), ("temp", PyVal.str "/t"),
       ("delete_temp", PyVal.bool true)] (by decide)).2.2 (by decide)

/-- C10: validation looks only at the first four `-`-separated
components — two component lists agreeing on their first four members
validate identically — and on success the returned string is the full
original input, trailing ignored components included. -/
theorem C10_trailing_components :
    (∀ (now : PyDateTime) (comps comps' : List (List Char)),
      take4 comps = take4 comps' →
      validate_core now comps = validate_core now comps') ∧
    (∀ (now : PyDateTime) (s r : String),
      validate_date now s = .ok r → r = s) ∧
    validate_date sampleNow "2012-04-05-2-garbage" = .ok "2012-04-05-2-garbage" := by
  refine ⟨?_, ?_, by decide⟩
  · intro now c1 c2 hc
    unfold validate_core
    rw [hc]
  · intro now s r hr
    unfold validate_date at hr
    cases hv : validate_core now (splitOnDash s.data) with
    | error e => rw [hv] at hr; exact absurd hr (by simp)
    | ok u =>
      rw [hv] at hr
      exact (Except.ok.injEq _ _ ▸ hr).symm

theorem C10_trailing_witness :
    validate_core sampleNow
        ["2012".data, "04".data, "05".data, "2".data, "junk".data] =
      validate_core sampleNow ["2012".data, "04".data, "05".data, "2".data] :=
  C10_trailing_components.1 sampleNow _ _ (by decide)


end Gisc
